import Mathlib

/-!
Shallow embedding of `src/telethon/network/mtproto_sender.py` (class
`MtProtoSender`).  Bytes are modelled as `List Nat` (each element a byte
value), integers as `Nat`/`Int` with explicit reductions modulo `2 ^ w`
where the Python `struct` packing would truncate.  External collaborators
(crypto primitives, gzip, the TL object catalog, the error taxonomy) are
parameters of the development, as the spec declares them out of scope.
-/

namespace MtProto

/-- Little-endian byte encoding of `n`, `w` bytes wide (as Python
`struct.pack` produces for the low `w` bytes of `n`). -/
def toBytesLE : Nat → Nat → List Nat
  | _, 0 => []
  | n, w + 1 => n % 256 :: toBytesLE (n / 256) w

/-- Little-endian byte decoding, inverse of `toBytesLE` on in-range values. -/
def fromBytesLE (bs : List Nat) : Nat :=
  bs.foldr (fun b acc => b + 256 * acc) 0

/-- Two's-complement reinterpretation of an unsigned `bits`-wide value,
as Python `struct.unpack` of a signed field performs. -/
def toSigned (n : Nat) (bits : Nat) : Int :=
  if n < 2 ^ (bits - 1) then (n : Int) else (n : Int) - 2 ^ bits

/-- Little-endian encoding of a signed integer, `w` bytes wide
(two's complement, as Python `struct.pack` of a signed field). -/
def intToBytesLE (i : Int) (w : Nat) : List Nat :=
  toBytesLE (i % 2 ^ (8 * w)).toNat w

/-- A reader is the list of bytes not yet consumed (the position of
telethon's `BinaryReader` is the length already dropped). -/
abbrev Reader := List Nat

/-- Model of `BinaryReader.read w`: take `w` bytes or fail (telethon's reader raises
`BufferError` when fewer than `w` bytes remain). -/
def readBytesR (w : Nat) (r : Reader) : Option (List Nat × Reader) :=
  if w ≤ r.length then some (r.take w, r.drop w) else none

/-- The cryptographic collaborator consumed by the sender (`..crypto.AES`
and `helpers.calc_msg_key` / `calc_key`); the sender treats these as opaque
functions.  `calcKey`'s boolean is the `client` direction flag. -/
structure Crypto where
  calcMsgKey : List Nat → List Nat
  calcKey : Nat → List Nat → Bool → List Nat × List Nat
  encryptIge : List Nat → List Nat × List Nat → List Nat
  decryptIge : List Nat → List Nat × List Nat → List Nat

/-- The session store (external module).  `timeOffsetUpdates` and
`saveCount` are observation ghosts for the externally defined
`update_time_offset` and `save` methods. -/
structure Session where
  authKey : Nat
  authKeyId : Nat
  salt : Nat
  id : Nat
  sequence : Nat
  lastMsgId : Nat
  timeOffsetUpdates : List Int
  saveCount : Nat
deriving Repr, DecidableEq

/-- Modelled from the spec: `Session.get_new_msg_id` returns a strictly
increasing 64-bit message id (the session module is not under `src/`);
modelled as the successor-by-4 of the last id handed out. -/
def getNewMsgId (s : Session) : Session × Nat :=
  let m := s.lastMsgId + 4
  ({ s with lastMsgId := m }, m)

/-- Modelled from the spec: `Session.update_time_offset(correct_msg_id)`
adjusts the msg-id clock from server feedback (session module not under
`src/`); observed here as the list of correction ids it was called with. -/
def updateTimeOffset (s : Session) (correctMsgId : Int) : Session :=
  { s with timeOffsetUpdates := s.timeOffsetUpdates ++ [correctMsgId] }

/-- Modelled from the spec: `Session.save` persists the session (session
module not under `src/`); observed as a persistence counter. -/
def sessionSave (s : Session) : Session :=
  { s with saveCount := s.saveCount + 1 }

/-- An `MTProtoRequest` as the sender uses it: serialized body
(`on_send` output), `confirmed` (= `is_content_related`), the msg id
assigned at send time, the `confirm_received` latch, and an observation
ghost collecting the byte streams handed to `on_response`. -/
structure Request where
  body : List Nat
  confirmed : Bool
  msgId : Nat
  confirmReceived : Bool
  responses : List (List Nat)
deriving Repr, DecidableEq

/-- One outbound transmission as `_send_packet` put it on the transport:
the plaintext header fields, the inner body and the encrypted envelope. -/
structure SentMsg where
  salt : Nat
  sessionId : Nat
  msgId : Nat
  seqNo : Nat
  confirmed : Bool
  body : List Nat
  envelope : List Nat
deriving Repr, DecidableEq

/-- The mutable state of `MtProtoSender`: the session, the
`_need_confirmation` ack buffer, the transcript of transport sends, the
`_updates_thread_sleep` signal and the `logging_out` flag. -/
structure SenderState where
  session : Session
  needConfirmation : List Int
  sentLog : List SentMsg
  updatesThreadSleep : Option Nat
  loggingOut : Bool
deriving Repr, DecidableEq

/-- Source method `MtProtoSender._generate_sequence(confirmed)`: returns the emitted
sequence number and the new value of `session.sequence`. -/
def generateSequence (sequence : Nat) (confirmed : Bool) : Nat × Nat :=
  if confirmed then (sequence * 2 + 1, sequence + 1)
  else (sequence * 2, sequence)

/-- Source method `MtProtoSender._send_packet(packet, request)`: mints a msg id for the
request, assembles the plaintext
`salt(8) ‖ session_id(8) ‖ msg_id(8) ‖ seq(4) ‖ len(4) ‖ packet`,
encrypts it with the client→server key and transmits
`auth_key_id(8) ‖ msg_key(16) ‖ ciphertext`.  Returns the new state and
the record of what was sent (whose `msgId` the source assigns to
`request.msg_id`). -/
def sendPacket (c : Crypto) (st : SenderState) (packet : List Nat)
    (confirmed : Bool) : SenderState × SentMsg :=
  let s1 := (getNewMsgId st.session).1
  let msgId := (getNewMsgId st.session).2
  let seqNo := (generateSequence s1.sequence confirmed).1
  let s2 := { s1 with sequence := (generateSequence s1.sequence confirmed).2 }
  let plain := toBytesLE s2.salt 8 ++ toBytesLE s2.id 8 ++ toBytesLE msgId 8
      ++ toBytesLE seqNo 4 ++ toBytesLE packet.length 4 ++ packet
  let msgKey := c.calcMsgKey plain
  let cipherText := c.encryptIge plain (c.calcKey s2.authKey msgKey true)
  let envelope := toBytesLE s2.authKeyId 8 ++ msgKey ++ cipherText
  let sm : SentMsg :=
    { salt := s2.salt, sessionId := s2.id, msgId := msgId, seqNo := seqNo,
      confirmed := confirmed, body := packet, envelope := envelope }
  ({ st with session := s2, sentLog := st.sentLog ++ [sm] }, sm)

/-- Modelled from the spec: serialization of a `MsgsAck` object
(`..tl.types.MsgsAck`, not under `src/`) — its constructor tag
`0x62d6b459` followed by the count and the 64-bit msg ids being
acknowledged. -/
def msgsAckBytes (ids : List Int) : List Nat :=
  toBytesLE 0x62d6b459 4 ++ toBytesLE ids.length 4
    ++ ids.foldr (fun i acc => intToBytesLE i 8 ++ acc) []

/-- Source method `MtProtoSender.send(request)`: if the ack buffer is non-empty, first
serialize and transmit a `MsgsAck` for it (non-content-related, per the
spec's §4.3 description of the `MsgsAck` TL object) and clear the buffer,
then transmit the request itself and persist the session.  Returns the new
state and the request with its assigned `msg_id`. -/
def send (c : Crypto) (st : SenderState) (req : Request) :
    SenderState × Request :=
  let st1 :=
    if st.needConfirmation.isEmpty then st
    else
      let (st', _) := sendPacket c st (msgsAckBytes st.needConfirmation) false
      { st' with needConfirmation := [] }
  let (st2, sm) := sendPacket c st1 req.body req.confirmed
  let st3 := { st2 with session := sessionSave st2.session }
  (st3, { req with msgId := sm.msgId })

/-- Failures the sender raises (Python exception classes). -/
inductive SenderError
  | bufferError
  | valueError
  | attributeError
  | badMessage (code : Int)
  | rpcError (code : Int) (message : List Nat)
  | floodWait (seconds : Nat)
  | invalidDC (code : Int) (message : List Nat)
  | fuelExhausted
deriving Repr, DecidableEq

/-- Source method `MtProtoSender._decode_msg(body)`: strip `auth_key_id(8)` and
`msg_key(16)`, decrypt the remainder with the server→client key, then from
the plaintext skip salt and session id and read
`(remote_msg_id, remote_sequence, msg_len, message)`.  Reads past the end
of a buffer raise `BufferError`, as does the source's explicit
`len(body) < 8` guard. -/
def decodeMsg (c : Crypto) (authKey : Nat) (body : List Nat) :
    Except SenderError (List Nat × Int × Int) :=
  if body.length < 8 then .error .bufferError
  else
    match readBytesR 8 body with
    | none => .error .bufferError
    | some (_, r1) =>
      match readBytesR 16 r1 with
      | none => .error .bufferError
      | some (msgKey, r2) =>
        let plain := c.decryptIge r2 (c.calcKey authKey msgKey false)
        match readBytesR 8 plain with
        | none => .error .bufferError
        | some (_, p1) =>
          match readBytesR 8 p1 with
          | none => .error .bufferError
          | some (_, p2) =>
            match readBytesR 8 p2 with
            | none => .error .bufferError
            | some (midB, p3) =>
              match readBytesR 4 p3 with
              | none => .error .bufferError
              | some (seqB, p4) =>
                match readBytesR 4 p4 with
                | none => .error .bufferError
                | some (lenB, p5) =>
                  let msgLen : Int := toSigned (fromBytesLE lenB) 32
                  if 0 ≤ msgLen ∧ msgLen.toNat ≤ p5.length then
                    .ok (p5.take msgLen.toNat,
                      toSigned (fromBytesLE midB) 64,
                      toSigned (fromBytesLE seqB) 32)
                  else .error .bufferError

/-- Modelled from the spec: `BinaryReader.tgread_bytes` (the TL byte-string
reader of `..utils`, not under `src/`), abstracted as a 32-bit
length-prefixed byte string. -/
def tgreadBytesR (r : Reader) : Option (List Nat × Reader) :=
  match readBytesR 4 r with
  | none => none
  | some (lenB, r1) => readBytesR (fromBytesLE lenB) r1

/-- Serialization matching `tgreadBytesR` (what `tgread_bytes` and
`tgread_string` would have consumed). -/
def tgWriteBytes (bs : List Nat) : List Nat :=
  toBytesLE bs.length 4 ++ bs

/-- Modelled from the spec: parsing a `MsgsAck` object as
`reader.tgread_object()` does for tag `0x62d6b459` (the TL layer is not
under `src/`) — inverse of `msgsAckBytes`. -/
def parseMsgsAckR (r : Reader) : Option (List Int × Reader) :=
  match readBytesR 4 r with
  | none => none
  | some (_, r1) =>
    match readBytesR 4 r1 with
    | none => none
    | some (cntB, r2) =>
      let rec go : Nat → Reader → Option (List Int × Reader)
        | 0, rr => some ([], rr)
        | n + 1, rr =>
          match readBytesR 8 rr with
          | none => none
          | some (idB, rr1) =>
            match go n rr1 with
            | none => none
            | some (ids, rr2) => some (toSigned (fromBytesLE idB) 64 :: ids, rr2)
      go (fromBytesLE cntB) r2

/-- Whether `hay` begins with `needle` (Python `str.startswith`). -/
def startsWithL (needle hay : List Nat) : Bool :=
  hay.take needle.length = needle

/-- Whether `needle` occurs somewhere in `hay` (Python `in` on strings). -/
def hasSubstr (needle : List Nat) : List Nat → Bool
  | [] => startsWithL needle []
  | b :: t => startsWithL needle (b :: t) || hasSubstr needle t

/-- Byte string of an ASCII literal. -/
def strBytes (s : String) : List Nat := s.toList.map Char.toNat

/-- Modelled from the spec: the `RPCError` constructor of `..errors` (not
under `src/`) parses the integer suffix after `FLOOD_WAIT_` into
`additional_data`; decimal value of an ASCII digit string. -/
def decVal (ds : List Nat) : Nat :=
  ds.foldl (fun acc d => acc * 10 + (d - 48)) 0

/-- The external collaborators dispatched on but not implemented here:
crypto, `gzip.decompress`, the error taxonomy's `must_resend` flag, the
`tlobjects` catalog membership test, and `tgread_object` for the catalog
branch. -/
structure Ext where
  crypto : Crypto
  gunzip : List Nat → List Nat
  mustResend : Int → List Nat → Bool
  isKnownTag : Nat → Bool
  tgreadObject : Reader → List Nat × Reader

/-- Result of dispatching one inbound message: sender state, the borrowed
request and updates sink after their in-place mutations, the reader
position, and either the handler's boolean return or the Python exception
it raised.  Mutations performed before a raise persist, as they do on the
Python objects. -/
structure DispatchRes where
  st : SenderState
  request : Option Request
  updates : Option (List (List Nat))
  rd : Reader
  result : Except SenderError Bool
deriving Repr

/-- Source method `MtProtoSender._handle_pong`: re-reads the code, reads the echoed
`ping_msg_id`, then compares it against `request.msg_id` — unconditionally,
so a `None` request raises `AttributeError`. -/
def handlePong (st : SenderState) (_msgId _sequence : Int) (rd : Reader)
    (request : Option Request) (updates : Option (List (List Nat))) :
    DispatchRes :=
  match readBytesR 4 rd with
  | none => ⟨st, request, updates, rd, .error .bufferError⟩
  | some (_, r1) =>
    match readBytesR 8 r1 with
    | none => ⟨st, request, updates, r1, .error .bufferError⟩
    | some (pidB, r2) =>
      match request with
      | none => ⟨st, none, updates, r2, .error .attributeError⟩
      | some req =>
        if fromBytesLE pidB = req.msgId then
          ⟨st, some { req with confirmReceived := true }, updates, r2, .ok false⟩
        else ⟨st, some req, updates, r2, .ok false⟩

/-- Source method `MtProtoSender._handle_bad_server_salt`: read
`(code, bad_msg_id, bad_msg_seq_no, error_code, new_salt)`, overwrite
`session.salt` with the new salt, raise `ValueError` when no request is
live, otherwise re-drive `send(request)` and return `True`. -/
def handleBadServerSalt (c : Crypto) (st : SenderState)
    (_msgId _sequence : Int) (rd : Reader) (request : Option Request)
    (updates : Option (List (List Nat))) : DispatchRes :=
  match readBytesR 4 rd with
  | none => ⟨st, request, updates, rd, .error .bufferError⟩
  | some (_, r1) =>
    match readBytesR 8 r1 with
    | none => ⟨st, request, updates, r1, .error .bufferError⟩
    | some (_, r2) =>
      match readBytesR 4 r2 with
      | none => ⟨st, request, updates, r2, .error .bufferError⟩
      | some (_, r3) =>
        match readBytesR 4 r3 with
        | none => ⟨st, request, updates, r3, .error .bufferError⟩
        | some (_, r4) =>
          match readBytesR 8 r4 with
          | none => ⟨st, request, updates, r4, .error .bufferError⟩
          | some (saltB, r5) =>
            let newSalt := fromBytesLE saltB
            let st1 := { st with session := { st.session with salt := newSalt } }
            match request with
            | none => ⟨st1, none, updates, r5, .error .valueError⟩
            | some req =>
              let (st2, req2) := send c st1 req
              ⟨st2, some req2, updates, r5, .ok true⟩

/-- Source method `MtProtoSender._handle_bad_msg_notification`: read
`(code, request_id, request_sequence, error_code)`; for codes 16 and 17
correct the session time offset from the current inbound `msg_id` and
save the session, otherwise raise `BadMessageError(error_code)`. -/
def handleBadMsgNotification (st : SenderState) (msgId _sequence : Int)
    (rd : Reader) (request : Option Request)
    (updates : Option (List (List Nat))) : DispatchRes :=
  match readBytesR 4 rd with
  | none => ⟨st, request, updates, rd, .error .bufferError⟩
  | some (_, r1) =>
    match readBytesR 8 r1 with
    | none => ⟨st, request, updates, r1, .error .bufferError⟩
    | some (_, r2) =>
      match readBytesR 4 r2 with
      | none => ⟨st, request, updates, r2, .error .bufferError⟩
      | some (_, r3) =>
        match readBytesR 4 r3 with
        | none => ⟨st, request, updates, r3, .error .bufferError⟩
        | some (codeB, r4) =>
          let errorCode := toSigned (fromBytesLE codeB) 32
          if errorCode = 16 ∨ errorCode = 17 then
            let s1 := sessionSave (updateTimeOffset st.session msgId)
            ⟨{ st with session := s1 }, request, updates, r4, .ok false⟩
          else
            ⟨st, request, updates, r4, .error (.badMessage errorCode)⟩

/-- ASCII bytes of the flood-wait message tag. -/
def floodTag : List Nat := strBytes "FLOOD_WAIT_"

/-- ASCII bytes of the migration message marker. -/
def migrateTag : List Nat := strBytes "_MIGRATE_"

/-- Source method `MtProtoSender._handle_rpc_result`: read `(code, request_id,
inner_code)`; set `confirm_received` when the live request's id matches;
then either parse and classify an `rpc_error`, decompress a gzip-packed
result into `on_response`, or (after rewinding 4 bytes) feed the reader
to `on_response` when the ids match and discard the result otherwise. -/
def handleRpcResult (E : Ext) (st : SenderState) (_msgId _sequence : Int)
    (rd : Reader) (request : Option Request)
    (updates : Option (List (List Nat))) : DispatchRes :=
  match readBytesR 4 rd with
  | none => ⟨st, request, updates, rd, .error .bufferError⟩
  | some (_, r1) =>
    match readBytesR 8 r1 with
    | none => ⟨st, request, updates, r1, .error .bufferError⟩
    | some (ridB, r2) =>
      match readBytesR 4 r2 with
      | none => ⟨st, request, updates, r2, .error .bufferError⟩
      | some (innerB, r3) =>
        let requestId := fromBytesLE ridB
        let innerCode := fromBytesLE innerB
        let request1 : Option Request :=
          match request with
          | some req =>
            if requestId = req.msgId then some { req with confirmReceived := true }
            else some req
          | none => none
        if innerCode = 0x2144ca19 then
          match readBytesR 4 r3 with
          | none => ⟨st, request1, updates, r3, .error .bufferError⟩
          | some (codeB, r4) =>
            match tgreadBytesR r4 with
            | none => ⟨st, request1, updates, r4, .error .bufferError⟩
            | some (message, r5) =>
              let code := toSigned (fromBytesLE codeB) 32
              let classify : Option Request → DispatchRes := fun reqF =>
                if startsWithL floodTag message then
                  let n := decVal (message.drop floodTag.length)
                  ⟨{ st with updatesThreadSleep := some n }, reqF,
                    updates, r5, .error (.floodWait n)⟩
                else if hasSubstr migrateTag message then
                  ⟨st, reqF, updates, r5, .error (.invalidDC code message)⟩
                else
                  ⟨st, reqF, updates, r5, .error (.rpcError code message)⟩
              if E.mustResend code message then
                match request1 with
                | none => ⟨st, none, updates, r5, .error .valueError⟩
                | some req => classify (some { req with confirmReceived := false })
              else classify request1
        else
          match request1 with
          | none => ⟨st, none, updates, r3, .error .valueError⟩
          | some req =>
            if innerCode = 0x3072cfa1 then
              match tgreadBytesR r3 with
              | none => ⟨st, some req, updates, r3, .error .bufferError⟩
              | some (packed, r4) =>
                ⟨st,
                  some { req with responses := req.responses ++ [E.gunzip packed] },
                  updates, r4, .ok false⟩
            else
              if requestId = req.msgId then
                ⟨st,
                  some { req with responses := req.responses ++ [innerB ++ r3] },
                  updates, innerB ++ r3, .ok false⟩
              else
                ⟨st, some req, updates, innerB ++ r3, .ok false⟩

/-- The loop body of `MtProtoSender._handle_container`, iterating over the
`size` inner records.  `pm` is the re-entry into `_process_msg` (with the
inner msg id); when it returns a falsy value the reader is advanced to
`begin_position + inner_length` (clamped at the record start for a negative
length, where the Python reader would seek backwards); an exception
propagates out of the loop. -/
def containerLoop
    (pm : Int → SenderState → Reader → Option Request →
      Option (List (List Nat)) → DispatchRes) :
    Nat → SenderState → Reader → Option Request →
      Option (List (List Nat)) → DispatchRes
  | 0, st, rd, request, updates => ⟨st, request, updates, rd, .ok false⟩
  | n + 1, st, rd, request, updates =>
    match readBytesR 8 rd with
    | none => ⟨st, request, updates, rd, .error .bufferError⟩
    | some (midB, r1) =>
      match readBytesR 4 r1 with
      | none => ⟨st, request, updates, r1, .error .bufferError⟩
      | some (_, r2) =>
        match readBytesR 4 r2 with
        | none => ⟨st, request, updates, r2, .error .bufferError⟩
        | some (lenB, r3) =>
          let innerLen := toSigned (fromBytesLE lenB) 32
          let R := pm (fromBytesLE midB : Int) st r3 request updates
          match R.result with
          | .error e => ⟨R.st, R.request, R.updates, R.rd, .error e⟩
          | .ok true => containerLoop pm n R.st R.rd R.request R.updates
          | .ok false =>
            containerLoop pm n R.st (r3.drop innerLen.toNat) R.request R.updates

/-- Source method `MtProtoSender._handle_container`: read the code and the record count,
then run the loop above; returns `False` when the loop completes. -/
def handleContainer
    (pm : Int → SenderState → Reader → Option Request →
      Option (List (List Nat)) → DispatchRes)
    (st : SenderState) (rd : Reader) (request : Option Request)
    (updates : Option (List (List Nat))) : DispatchRes :=
  match readBytesR 4 rd with
  | none => ⟨st, request, updates, rd, .error .bufferError⟩
  | some (_, r1) =>
    match readBytesR 4 r1 with
    | none => ⟨st, request, updates, r1, .error .bufferError⟩
    | some (sizeB, r2) =>
      containerLoop pm (toSigned (fromBytesLE sizeB) 32).toNat st r2
        request updates

/-- Source method `MtProtoSender._handle_gzip_packed`: read the code and the packed
bytes from the shared reader, decompress, and re-enter `_process_msg` on a
fresh reader over the inflated bytes; the shared reader stays at the end
of the packed field. -/
def handleGzipPacked (E : Ext)
    (pm : SenderState → Reader → Option Request →
      Option (List (List Nat)) → DispatchRes)
    (st : SenderState) (rd : Reader) (request : Option Request)
    (updates : Option (List (List Nat))) : DispatchRes :=
  match readBytesR 4 rd with
  | none => ⟨st, request, updates, rd, .error .bufferError⟩
  | some (_, r1) =>
    match tgreadBytesR r1 with
    | none => ⟨st, request, updates, r1, .error .bufferError⟩
    | some (packed, r2) =>
      let R := pm st (E.gunzip packed) request updates
      ⟨R.st, R.request, R.updates, r2, R.result⟩

/-- Source method `MtProtoSender._process_msg`: append the inbound msg id to the ack
buffer, peek the 32-bit tag (the source reads it and seeks back, so every
handler re-reads it), and dispatch.  The fuel argument bounds the
container/gzip recursion depth, which Python leaves unbounded. -/
def processMsg (E : Ext) :
    Nat → SenderState → Int → Int → Reader → Option Request →
      Option (List (List Nat)) → DispatchRes
  | 0, st, _, _, rd, request, updates =>
    ⟨st, request, updates, rd, .error .fuelExhausted⟩
  | fuel + 1, st, msgId, sequence, rd, request, updates =>
    let st0 := { st with needConfirmation := st.needConfirmation ++ [msgId] }
    match readBytesR 4 rd with
    | none => ⟨st0, request, updates, rd, .error .bufferError⟩
    | some (codeB, _) =>
      let code := fromBytesLE codeB
      if code = 0xf35c6d01 then
        handleRpcResult E st0 msgId sequence rd request updates
      else if code = 0x347773c5 then
        handlePong st0 msgId sequence rd request updates
      else if code = 0x73f1f8dc then
        handleContainer
          (fun mid st1 rd1 req1 upd1 =>
            processMsg E fuel st1 mid sequence rd1 req1 upd1)
          st0 rd request updates
      else if code = 0x3072cfa1 then
        handleGzipPacked E
          (fun st1 rd1 req1 upd1 =>
            processMsg E fuel st1 msgId sequence rd1 req1 upd1)
          st0 rd request updates
      else if code = 0xedab447b then
        handleBadServerSalt E.crypto st0 msgId sequence rd request updates
      else if code = 0xa7eff811 then
        handleBadMsgNotification st0 msgId sequence rd request updates
      else if code = 0x62d6b459 then
        match parseMsgsAckR rd with
        | none => ⟨st0, request, updates, rd, .error .bufferError⟩
        | some (ids, r1) =>
          match request with
          | some req =>
            if (req.msgId : Int) ∈ ids then
              if st0.loggingOut then
                ⟨st0, some { req with confirmReceived := true }, updates, r1,
                  .ok false⟩
              else ⟨st0, some req, updates, r1, .ok false⟩
            else ⟨st0, some req, updates, r1, .ok false⟩
          | none => ⟨st0, none, updates, r1, .ok false⟩
      else if E.isKnownTag code then
        let (obj, r1) := E.tgreadObject rd
        match updates with
        | none => ⟨st0, request, updates, r1, .ok false⟩
        | some us => ⟨st0, request, some (us ++ [obj]), r1, .ok false⟩
      else ⟨st0, request, updates, rd, .ok false⟩

/-! Concrete instances of the external collaborators, used to evaluate the
theorems below on closed inputs: a cipher whose encrypt and decrypt are
the identity (so its decrypt inverts its encrypt at every key), a gzip
that inverts nothing, and a taxonomy that marks nothing must-resend. -/

def cId : Crypto :=
  { calcMsgKey := fun _ => List.replicate 16 0,
    calcKey := fun _ _ _ => ([], []),
    encryptIge := fun p _ => p,
    decryptIge := fun ct _ => ct }

def eId : Ext :=
  { crypto := cId,
    gunzip := fun bs => bs,
    mustResend := fun _ _ => false,
    isKnownTag := fun _ => false,
    tgreadObject := fun r => ([], r) }

def sampleSession : Session :=
  { authKey := 7, authKeyId := 77, salt := 5, id := 9, sequence := 3,
    lastMsgId := 100, timeOffsetUpdates := [], saveCount := 0 }

def sampleState : SenderState :=
  { session := sampleSession, needConfirmation := [11, 12], sentLog := [],
    updatesThreadSleep := none, loggingOut := false }

def sampleRequest : Request :=
  { body := [9, 9], confirmed := true, msgId := 96, confirmReceived := false,
    responses := [] }

/-- The plaintext `_send_packet` assembles for payload `p` in state `st`
(named here so the round-trip theorem can speak about it). -/
def plainOf (st : SenderState) (p : List Nat) (b : Bool) : List Nat :=
  toBytesLE st.session.salt 8 ++ toBytesLE st.session.id 8
    ++ toBytesLE (st.session.lastMsgId + 4) 8
    ++ toBytesLE (generateSequence st.session.sequence b).1 4
    ++ toBytesLE p.length 4 ++ p

/-- The 16-byte msg key `_decode_msg` reads from an inbound envelope. -/
def msgKeyOf (body : List Nat) : List Nat := (body.drop 8).take 16

/-- The plaintext `_decode_msg` obtains by decrypting an inbound envelope
past its 24-byte header. -/
def plainOfBody (c : Crypto) (ak : Nat) (body : List Nat) : List Nat :=
  c.decryptIge (body.drop 24) (c.calcKey ak (msgKeyOf body) false)

/-- The signed `msg_len` field `_decode_msg` reads at plaintext offset 28. -/
def msgLenOf (c : Crypto) (ak : Nat) (body : List Nat) : Int :=
  toSigned (fromBytesLE (((plainOfBody c ak body).drop 28).take 4)) 32

/-- A 56-byte inbound envelope whose (identity-decrypted) plaintext has a
negative `msg_len` field: 24 header bytes, 28 zero plaintext bytes, then
`msg_len = -1` in two's complement. -/
def c5Body : List Nat :=
  List.replicate 24 0 ++ (List.replicate 28 0 ++ [255, 255, 255, 255])

/-- The wire form of a `bad_server_salt` object as
`_handle_bad_server_salt` reads it:
`code(4) ‖ bad_msg_id(8) ‖ bad_msg_seq_no(4) ‖ error_code(4) ‖ new_salt(8)`. -/
def badSaltBytes (tag badMsgId : Nat) (badSeq errCode : Int) (newSalt : Nat)
    (rest : Reader) : Reader :=
  toBytesLE tag 4 ++ (toBytesLE badMsgId 8 ++ (intToBytesLE badSeq 4
    ++ (intToBytesLE errCode 4 ++ (toBytesLE newSalt 8 ++ rest))))

/-- The wire form of a `bad_msg_notification` object as
`_handle_bad_msg_notification` reads it:
`code(4) ‖ request_id(8) ‖ request_sequence(4) ‖ error_code(4)`. -/
def badMsgBytes (tag reqId : Nat) (reqSeq errCode : Int)
    (rest : Reader) : Reader :=
  toBytesLE tag 4 ++ (toBytesLE reqId 8 ++ (intToBytesLE reqSeq 4
    ++ (intToBytesLE errCode 4 ++ rest)))

/-- The wire form of an `rpc_result` head as `_handle_rpc_result` reads
it: `code(4) ‖ request_id(8) ‖ inner_code(4)` followed by the inner
payload. -/
def rpcResultBytes (tag rid inner : Nat) (rest : Reader) : Reader :=
  toBytesLE tag 4 ++ (toBytesLE rid 8 ++ (toBytesLE inner 4 ++ rest))

/-- The inner payload of an `rpc_error`:
`error_code(4) ‖ error_message(tl string)`. -/
def rpcErrorBytes (code : Int) (message : List Nat) (rest : Reader) : Reader :=
  intToBytesLE code 4 ++ (tgWriteBytes message ++ rest)

theorem toBytesLE_length (n w : Nat) : (toBytesLE n w).length = w := by
  induction w generalizing n with
  | zero => rfl
  | succ w ih => simp [toBytesLE, ih]

theorem fromBytesLE_toBytesLE (n w : Nat) :
    fromBytesLE (toBytesLE n w) = n % 256 ^ w := by
  induction w generalizing n with
  | zero => simp [toBytesLE, fromBytesLE, Nat.mod_one]
  | succ w ih =>
    have h : fromBytesLE (toBytesLE (n / 256) w) = n / 256 % 256 ^ w := ih (n / 256)
    simp only [toBytesLE, fromBytesLE, List.foldr] at h ⊢
    rw [h]
    have hn : n = 256 ^ (w + 1) * (n / 256 / 256 ^ w) + (n % 256 + 256 * (n / 256 % 256 ^ w)) := by
      have h1 : n = 256 * (n / 256) + n % 256 := (Nat.div_add_mod n 256).symm
      have h2 : n / 256 = 256 ^ w * (n / 256 / 256 ^ w) + n / 256 % 256 ^ w :=
        (Nat.div_add_mod (n / 256) (256 ^ w)).symm
      calc n = 256 * (n / 256) + n % 256 := h1
        _ = 256 * (256 ^ w * (n / 256 / 256 ^ w) + n / 256 % 256 ^ w) + n % 256 := by rw [← h2]
        _ = 256 ^ (w + 1) * (n / 256 / 256 ^ w) + (n % 256 + 256 * (n / 256 % 256 ^ w)) := by
              ring
    have hlt : n % 256 + 256 * (n / 256 % 256 ^ w) < 256 ^ (w + 1) := by
      have hm : n % 256 < 256 := Nat.mod_lt _ (by norm_num)
      have hq : n / 256 % 256 ^ w < 256 ^ w := Nat.mod_lt _ (Nat.pos_pow_of_pos w (by norm_num))
      have : n % 256 + 256 * (n / 256 % 256 ^ w) ≤ 255 + 256 * (256 ^ w - 1) := by
        have : n / 256 % 256 ^ w ≤ 256 ^ w - 1 := Nat.le_sub_one_of_lt hq
        omega
      have hpos : 1 ≤ 256 ^ w := Nat.one_le_pow _ _ (by norm_num)
      have : 255 + 256 * (256 ^ w - 1) < 256 ^ (w + 1) := by
        rw [pow_succ]
        omega
      omega
    have hmod : n % 256 ^ (w + 1) = n % 256 + 256 * (n / 256 % 256 ^ w) := by
      conv_lhs => rw [hn]
      rw [Nat.mul_add_mod]
      exact Nat.mod_eq_of_lt hlt
    exact hmod.symm

theorem fromBytesLE_toBytesLE_of_lt {n w : Nat} (h : n < 256 ^ w) :
    fromBytesLE (toBytesLE n w) = n := by
  rw [fromBytesLE_toBytesLE, Nat.mod_eq_of_lt h]

theorem readBytesR_append {w : Nat} {xs : List Nat} (ys : List Nat)
    (h : xs.length = w) : readBytesR w (xs ++ ys) = some (xs, ys) := by
  subst h
  simp [readBytesR, List.take_left, List.drop_left]

theorem readBytesR_toBytesLE (n w : Nat) (ys : List Nat) :
    readBytesR w (toBytesLE n w ++ ys) = some (toBytesLE n w, ys) :=
  readBytesR_append ys (toBytesLE_length n w)

theorem intToBytesLE_length (i : Int) (w : Nat) :
    (intToBytesLE i w).length = w := toBytesLE_length _ _

theorem readBytesR_intToBytesLE (i : Int) (w : Nat) (ys : List Nat) :
    readBytesR w (intToBytesLE i w ++ ys) = some (intToBytesLE i w, ys) :=
  readBytesR_append ys (intToBytesLE_length i w)

/-- Reading back a two's-complement 32-bit field recovers the value when it
is in the signed 32-bit range. -/
theorem toSigned_intToBytesLE_32 (i : Int) (h1 : -(2 ^ 31) ≤ i) (h2 : i < 2 ^ 31) :
    toSigned (fromBytesLE (intToBytesLE i 4)) 32 = i := by
  have e1 : (2 : Int) ^ (8 * 4) = 4294967296 := by norm_num
  have e2 : (256 : Nat) ^ 4 = 4294967296 := by norm_num
  have e3 : (2 : Int) ^ 31 = 2147483648 := by norm_num
  have e4 : (2 : Int) ^ 32 = 4294967296 := by norm_num
  have e5 : (2 : Nat) ^ (32 - 1) = 2147483648 := by norm_num
  rw [e3] at h1 h2
  have hlt : (i % 2 ^ (8 * 4)).toNat < 256 ^ 4 := by
    rw [e1, e2]
    omega
  unfold intToBytesLE
  rw [fromBytesLE_toBytesLE_of_lt hlt]
  unfold toSigned
  rw [e1, e5]
  split <;> omega

/-- Reading back a two's-complement 64-bit field recovers the value when it
is in the signed 64-bit range. -/
theorem toSigned_intToBytesLE_64 (i : Int) (h1 : -(2 ^ 63) ≤ i) (h2 : i < 2 ^ 63) :
    toSigned (fromBytesLE (intToBytesLE i 8)) 64 = i := by
  have e1 : (2 : Int) ^ (8 * 8) = 18446744073709551616 := by norm_num
  have e2 : (256 : Nat) ^ 8 = 18446744073709551616 := by norm_num
  have e3 : (2 : Int) ^ 63 = 9223372036854775808 := by norm_num
  have e4 : (2 : Int) ^ 64 = 18446744073709551616 := by norm_num
  have e5 : (2 : Nat) ^ (64 - 1) = 9223372036854775808 := by norm_num
  rw [e3] at h1 h2
  have hlt : (i % 2 ^ (8 * 8)).toNat < 256 ^ 8 := by
    rw [e1, e2]
    omega
  unfold intToBytesLE
  rw [fromBytesLE_toBytesLE_of_lt hlt]
  unfold toSigned
  rw [e1, e5]
  split <;> omega

/-- An unsigned read of a `w`-byte field, as `toSigned` of a small value. -/
theorem toSigned_of_lt {n bits : Nat} (h : n < 2 ^ (bits - 1)) :
    toSigned n bits = (n : Int) := by
  unfold toSigned
  rw [if_pos h]

/-- C2: `_generate_sequence` gives a content-related message `2·n+1` and
increments the counter, gives a non-content-related message `2·n` leaving
the counter unchanged; content-related results are odd, non-content-related
even, and consecutive content-related results differ by exactly 2 (no gap
in the odd series). -/
theorem claim_c2_sequence_rule (n : Nat) :
    generateSequence n true = (2 * n + 1, n + 1) ∧
    generateSequence n false = (2 * n, n) ∧
    (generateSequence n true).1 % 2 = 1 ∧
    (generateSequence n false).1 % 2 = 0 ∧
    (generateSequence (generateSequence n true).2 true).1
      = (generateSequence n true).1 + 2 := by
  refine ⟨?_, ?_, ?_, ?_, ?_⟩ <;> simp [generateSequence] <;> omega

/-- C3: `send` empties the pending-acks buffer in every case, and when the
buffer was non-empty it first transmits a `msgs_ack` carrying exactly the
buffered ids, non-content-related (even sequence number), immediately
before the request's own envelope. -/
theorem claim_c3_ack_drain (c : Crypto) (st : SenderState) (req : Request) :
    (send c st req).1.needConfirmation = [] ∧
    (st.needConfirmation ≠ [] →
      ∃ ack reqSm,
        (send c st req).1.sentLog = st.sentLog ++ [ack, reqSm] ∧
        ack.body = msgsAckBytes st.needConfirmation ∧
        ack.confirmed = false ∧
        ack.seqNo % 2 = 0 ∧
        reqSm.body = req.body ∧
        reqSm.confirmed = req.confirmed) := by
  by_cases h : st.needConfirmation.isEmpty
  · rw [List.isEmpty_iff] at h
    constructor
    · simp [send, sendPacket, sessionSave, h]
    · intro hne
      exact absurd h hne
  · have hne : ¬st.needConfirmation.isEmpty = true := h
    constructor
    · simp [send, sendPacket, sessionSave, hne]
    · intro _
      refine ⟨(sendPacket c st (msgsAckBytes st.needConfirmation) false).2,
        (sendPacket c
          { (sendPacket c st (msgsAckBytes st.needConfirmation) false).1 with
              needConfirmation := [] } req.body req.confirmed).2,
        ?_, ?_, ?_, ?_, ?_, ?_⟩
      · simp [send, sendPacket, sessionSave, hne, List.append_assoc]
      · simp [sendPacket]
      · simp [sendPacket]
      · simp [sendPacket, generateSequence, getNewMsgId]
      · simp [sendPacket]
      · simp [sendPacket]

/-- Decoding an envelope whose ciphertext decrypts (under the
server→client key for its 16-byte msg key) to a well-formed plaintext
recovers body, msg id and sequence number. -/
theorem decodeMsg_ok (c : Crypto) (ak kid salt sid mid seqNo : Nat)
    (p msgKey ct : List Nat) (hmkLen : msgKey.length = 16)
    (hct : c.decryptIge ct (c.calcKey ak msgKey false) =
      toBytesLE salt 8 ++ (toBytesLE sid 8 ++ (toBytesLE mid 8
        ++ (toBytesLE seqNo 4 ++ (toBytesLE p.length 4 ++ p)))))
    (hp : p.length < 2 ^ 31) (hmid : mid < 2 ^ 63) (hseq : seqNo < 2 ^ 31) :
    decodeMsg c ak (toBytesLE kid 8 ++ msgKey ++ ct) =
      .ok (p, (mid : Int), (seqNo : Int)) := by
  have hassoc : toBytesLE kid 8 ++ msgKey ++ ct
      = toBytesLE kid 8 ++ (msgKey ++ ct) := by
    simp [List.append_assoc]
  have h8 : ¬(toBytesLE kid 8 ++ (msgKey ++ ct)).length < 8 := by
    simp [toBytesLE_length]
  have hp4 : p.length < 256 ^ 4 := by
    have : (2 : Nat) ^ 31 < 256 ^ 4 := by norm_num
    omega
  have hmid8 : mid < 256 ^ 8 := by
    have : (2 : Nat) ^ 63 < 256 ^ 8 := by norm_num
    omega
  have hseq4 : seqNo < 256 ^ 4 := by
    have : (2 : Nat) ^ 31 < 256 ^ 4 := by norm_num
    omega
  have hpS : toSigned (fromBytesLE (toBytesLE p.length 4)) 32 = (p.length : Int) := by
    rw [fromBytesLE_toBytesLE_of_lt hp4]
    exact toSigned_of_lt (by norm_num; omega)
  have hmidS : toSigned (fromBytesLE (toBytesLE mid 8)) 64 = (mid : Int) := by
    rw [fromBytesLE_toBytesLE_of_lt hmid8]
    exact toSigned_of_lt (by norm_num; omega)
  have hseqS : toSigned (fromBytesLE (toBytesLE seqNo 4)) 32 = (seqNo : Int) := by
    rw [fromBytesLE_toBytesLE_of_lt hseq4]
    exact toSigned_of_lt (by norm_num; omega)
  rw [hassoc]
  unfold decodeMsg
  rw [if_neg h8]
  simp only [readBytesR_toBytesLE, readBytesR_append ct hmkLen, hct, hpS,
    hmidS, hseqS]
  simp

/-- C1: decoding (`_decode_msg`) the envelope `_send_packet` produced for a
payload `p` yields exactly `p`, the msg id minted for `p` and the sequence
number minted for `p`, provided the external cipher's decrypt (at the
server→client key) inverts its encrypt (at the client→server key), the msg
key is 16 bytes wide, and payload length, msg id and sequence number fit
their wire fields. -/
theorem claim_c1_roundtrip (c : Crypto) (st : SenderState) (p : List Nat)
    (b : Bool)
    (hmk : ∀ pt, (c.calcMsgKey pt).length = 16)
    (hinv : ∀ mk x,
      c.decryptIge (c.encryptIge x (c.calcKey st.session.authKey mk true))
        (c.calcKey st.session.authKey mk false) = x)
    (hp : p.length < 2 ^ 31)
    (hseq : 2 * st.session.sequence + 1 < 2 ^ 31)
    (hmid : st.session.lastMsgId + 4 < 2 ^ 63) :
    decodeMsg c st.session.authKey (sendPacket c st p b).2.envelope =
      .ok (p, ((sendPacket c st p b).2.msgId : Int),
        ((sendPacket c st p b).2.seqNo : Int)) := by
  have henv : (sendPacket c st p b).2.envelope
      = toBytesLE st.session.authKeyId 8
        ++ c.calcMsgKey (plainOf st p b)
        ++ c.encryptIge (plainOf st p b)
          (c.calcKey st.session.authKey (c.calcMsgKey (plainOf st p b)) true) := by
    simp [sendPacket, getNewMsgId, plainOf]
  have hmsgId : (sendPacket c st p b).2.msgId = st.session.lastMsgId + 4 := by
    simp [sendPacket, getNewMsgId]
  have hseqNo : (sendPacket c st p b).2.seqNo
      = (generateSequence st.session.sequence b).1 := by
    simp [sendPacket, getNewMsgId]
  have hseqlt : (generateSequence st.session.sequence b).1 < 2 ^ 31 := by
    cases b <;> simp [generateSequence] <;> omega
  rw [henv, hmsgId, hseqNo]
  exact decodeMsg_ok c st.session.authKey st.session.authKeyId
    st.session.salt st.session.id (st.session.lastMsgId + 4)
    (generateSequence st.session.sequence b).1 p _ _
    (hmk _) (by rw [hinv]; simp [plainOf, List.append_assoc])
    hp (by omega) hseqlt

/-- C5 (amended): `_decode_msg` succeeds exactly when the envelope is at
least 24 bytes, the decrypted plaintext is at least the 32-byte header,
and the signed `msg_len` is non-negative and at most the bytes remaining
after the header; in every other case it raises `BufferError`. -/
theorem claim_c5_decode_characterization (c : Crypto) (ak : Nat)
    (body : List Nat) :
    (∃ v, decodeMsg c ak body = .ok v) ↔
      (24 ≤ body.length ∧
        32 ≤ (plainOfBody c ak body).length ∧
        0 ≤ msgLenOf c ak body ∧
        (msgLenOf c ak body).toNat ≤ (plainOfBody c ak body).length - 32) := by
  unfold decodeMsg
  by_cases h8 : body.length < 8
  · rw [if_pos h8]
    constructor
    · rintro ⟨v, hv⟩
      exact absurd hv (by simp)
    · rintro ⟨h24, -⟩
      omega
  · rw [if_neg h8]
    have e1 : readBytesR 8 body = some (body.take 8, body.drop 8) := by
      unfold readBytesR
      rw [if_pos (by omega)]
    simp only [e1]
    by_cases h24 : 24 ≤ body.length
    · have e2 : readBytesR 16 (body.drop 8)
          = some ((body.drop 8).take 16, (body.drop 8).drop 16) := by
        unfold readBytesR
        rw [if_pos (by simp [List.length_drop]; omega)]
      simp only [e2]
      have edrop : (body.drop 8).drop 16 = body.drop 24 := by
        rw [List.drop_drop]
      rw [edrop]
      have eplain : c.decryptIge (body.drop 24)
          (c.calcKey ak ((body.drop 8).take 16) false) = plainOfBody c ak body := rfl
      rw [eplain]
      set P := plainOfBody c ak body with hP
      by_cases hp8 : 8 ≤ P.length
      · have e3 : readBytesR 8 P = some (P.take 8, P.drop 8) := by
          unfold readBytesR
          rw [if_pos hp8]
        simp only [e3]
        by_cases hp16 : 16 ≤ P.length
        · have e4 : readBytesR 8 (P.drop 8)
              = some ((P.drop 8).take 8, (P.drop 8).drop 8) := by
            unfold readBytesR
            rw [if_pos (by simp [List.length_drop]; omega)]
          simp only [e4, List.drop_drop]
          by_cases hp24 : 24 ≤ P.length
          · have e5 : readBytesR 8 (P.drop 16)
                = some ((P.drop 16).take 8, (P.drop 16).drop 8) := by
              unfold readBytesR
              rw [if_pos (by simp [List.length_drop]; omega)]
            simp only [e5, List.drop_drop]
            by_cases hp28 : 28 ≤ P.length
            · have e6 : readBytesR 4 (P.drop 24)
                  = some ((P.drop 24).take 4, (P.drop 24).drop 4) := by
                unfold readBytesR
                rw [if_pos (by simp [List.length_drop]; omega)]
              simp only [e6, List.drop_drop]
              by_cases hp32 : 32 ≤ P.length
              · have e7 : readBytesR 4 (P.drop 28)
                    = some ((P.drop 28).take 4, (P.drop 28).drop 4) := by
                  unfold readBytesR
                  rw [if_pos (by simp [List.length_drop]; omega)]
                simp only [e7, List.drop_drop]
                have elen : toSigned (fromBytesLE ((P.drop 28).take 4)) 32
                    = msgLenOf c ak body := rfl
                rw [elen]
                have elen32 : (P.drop 32).length = P.length - 32 := by
                  simp [List.length_drop]
                have hd : (P.drop (28 + 4)).length = P.length - 32 := by
                  simp [List.length_drop]
                split
                · rename_i hcond
                  constructor
                  · intro _
                    refine ⟨h24, hp32, hcond.1, ?_⟩
                    have hc2 := hcond.2
                    omega
                  · intro _
                    exact ⟨_, rfl⟩
                · rename_i hcond
                  rw [not_and_or] at hcond
                  constructor
                  · rintro ⟨v, hv⟩
                    exact absurd hv (by simp)
                  · rintro ⟨-, -, hc1, hc2⟩
                    exfalso
                    rcases hcond with hc | hc
                    · exact hc hc1
                    · omega
              · have e7 : readBytesR 4 (P.drop 28) = none := by
                  unfold readBytesR
                  rw [if_neg (by simp [List.length_drop]; omega)]
                simp only [e7]
                constructor
                · rintro ⟨v, hv⟩
                  exact absurd hv (by simp)
                · rintro ⟨-, hc, -⟩
                  omega
            · have e6 : readBytesR 4 (P.drop 24) = none := by
                unfold readBytesR
                rw [if_neg (by simp [List.length_drop]; omega)]
              simp only [e6]
              constructor
              · rintro ⟨v, hv⟩
                exact absurd hv (by simp)
              · rintro ⟨-, hc, -⟩
                omega
          · have e5 : readBytesR 8 (P.drop 16) = none := by
              unfold readBytesR
              rw [if_neg (by simp [List.length_drop]; omega)]
            simp only [e5]
            constructor
            · rintro ⟨v, hv⟩
              exact absurd hv (by simp)
            · rintro ⟨-, hc, -⟩
              omega
        · have e4 : readBytesR 8 (P.drop 8) = none := by
            unfold readBytesR
            rw [if_neg (by simp [List.length_drop]; omega)]
          simp only [e4]
          constructor
          · rintro ⟨v, hv⟩
            exact absurd hv (by simp)
          · rintro ⟨-, hc, -⟩
            omega
      · have e3 : readBytesR 8 P = none := by
          unfold readBytesR
          rw [if_neg (by omega)]
        simp only [e3]
        constructor
        · rintro ⟨v, hv⟩
          exact absurd hv (by simp)
        · rintro ⟨-, hc, -⟩
          omega
    · have e2 : readBytesR 16 (body.drop 8) = none := by
        unfold readBytesR
        rw [if_neg (by simp [List.length_drop]; omega)]
      simp only [e2]
      constructor
      · rintro ⟨v, hv⟩
        exact absurd hv (by simp)
      · rintro ⟨hc, -⟩
        omega

/-- Counterexample for C5 as stated: a 56-byte envelope (identity cipher)
whose plaintext is a full 32-byte header with `msg_len = -1`; the envelope
is not shorter than 24 bytes and the signed `msg_len` does not exceed the
bytes remaining after the header, yet decoding fails. -/
theorem claim_c5_counterexample :
    24 ≤ c5Body.length ∧
    ¬ ((plainOfBody cId 7 c5Body).length : Int) - 32 < msgLenOf cId 7 c5Body ∧
    decodeMsg cId 7 c5Body = .error .bufferError := by
  refine ⟨by decide, by decide, ?_⟩
  rfl

/-- Witness for C1: the round trip evaluated at a concrete session and
payload under the identity cipher. -/
theorem claim_c1_roundtrip_witness :
    decodeMsg cId sampleState.session.authKey
        (sendPacket cId sampleState [1, 2, 3] true).2.envelope =
      .ok ([1, 2, 3],
        ((sendPacket cId sampleState [1, 2, 3] true).2.msgId : Int),
        ((sendPacket cId sampleState [1, 2, 3] true).2.seqNo : Int)) :=
  claim_c1_roundtrip cId sampleState [1, 2, 3] true
    (fun _ => rfl) (fun _ _ => rfl) (by decide) (by decide) (by decide)

/-- What one `send` call transmits: possibly an ack packet, then the
request's own packet, whose record carries the current salt and session
id, the request's body, a msg id fresher than every previously minted one
(which the source assigns to `request.msg_id`), and the session salt is
left unchanged. -/
theorem send_spec (c : Crypto) (st : SenderState) (req : Request) :
    ∃ pre sm,
      (send c st req).1.sentLog = st.sentLog ++ pre ++ [sm] ∧
      sm.salt = st.session.salt ∧
      sm.sessionId = st.session.id ∧
      sm.body = req.body ∧
      (send c st req).2 = { req with msgId := sm.msgId } ∧
      st.session.lastMsgId < sm.msgId ∧
      (send c st req).1.session.salt = st.session.salt := by
  by_cases h : st.needConfirmation.isEmpty
  · refine ⟨[], (sendPacket c st req.body req.confirmed).2,
      ?_, ?_, ?_, ?_, ?_, ?_, ?_⟩ <;>
      simp [send, sendPacket, getNewMsgId, sessionSave, h]
  · refine ⟨[(sendPacket c st (msgsAckBytes st.needConfirmation) false).2],
      (sendPacket c
        { (sendPacket c st (msgsAckBytes st.needConfirmation) false).1 with
            needConfirmation := [] } req.body req.confirmed).2,
      ?_, ?_, ?_, ?_, ?_, ?_, ?_⟩ <;>
      simp [send, sendPacket, getNewMsgId, sessionSave, h, List.append_assoc] <;>
      omega

/-- C4: handling `bad_server_salt` overwrites `session.salt` with the salt
read from the message and, with a live request, re-invokes `send(request)`
and returns `True` — so the request's next outbound envelope is built
under the new salt with a freshly minted msg id distinct from the
original; with no live request the salt is still overwritten but the
handler raises `ValueError`. -/
theorem claim_c4_bad_server_salt (c : Crypto) (st : SenderState)
    (mi sq : Int) (tag badMsgId : Nat) (badSeq errCode : Int) (newSalt : Nat)
    (rest : Reader) (req : Request)
    (hsalt : newSalt < 2 ^ 64)
    (hmsg : req.msgId ≤ st.session.lastMsgId) :
    ((handleBadServerSalt c st mi sq
        (badSaltBytes tag badMsgId badSeq errCode newSalt rest)
        (some req) none).st.session.salt = newSalt ∧
      (handleBadServerSalt c st mi sq
        (badSaltBytes tag badMsgId badSeq errCode newSalt rest)
        (some req) none).result = .ok true ∧
      ∃ req2 pre sm,
        (handleBadServerSalt c st mi sq
          (badSaltBytes tag badMsgId badSeq errCode newSalt rest)
          (some req) none).request = some req2 ∧
        (handleBadServerSalt c st mi sq
          (badSaltBytes tag badMsgId badSeq errCode newSalt rest)
          (some req) none).st.sentLog = st.sentLog ++ pre ++ [sm] ∧
        sm.salt = newSalt ∧
        sm.body = req.body ∧
        sm.msgId = req2.msgId ∧
        req2.msgId ≠ req.msgId) ∧
    ((handleBadServerSalt c st mi sq
        (badSaltBytes tag badMsgId badSeq errCode newSalt rest)
        none none).st.session.salt = newSalt ∧
      (handleBadServerSalt c st mi sq
        (badSaltBytes tag badMsgId badSeq errCode newSalt rest)
        none none).result = .error .valueError) := by
  have hreads : ∀ request updates, handleBadServerSalt c st mi sq
      (badSaltBytes tag badMsgId badSeq errCode newSalt rest) request updates =
      (let st1 := { st with session := { st.session with salt := newSalt } }
       match request with
       | none => ⟨st1, none, updates, rest, .error .valueError⟩
       | some req =>
         let s := send c st1 req
         ⟨s.1, some s.2, updates, rest, .ok true⟩) := by
    intro request updates
    have hns : newSalt < 256 ^ 8 := by
      have : (256 : Nat) ^ 8 = 2 ^ 64 := by norm_num
      omega
    unfold handleBadServerSalt
    simp only [badSaltBytes, readBytesR_toBytesLE, readBytesR_intToBytesLE,
      fromBytesLE_toBytesLE_of_lt hns]
  set st1 : SenderState :=
    { st with session := { st.session with salt := newSalt } } with hst1
  obtain ⟨pre, sm, hlog, hsalt1, -, hbody, hreq2, hfresh, hsendsalt⟩ :=
    send_spec c st1 req
  refine ⟨⟨?_, ?_, ?_⟩, ?_, ?_⟩
  · rw [hreads]
    simpa using hsendsalt
  · rw [hreads]
  · refine ⟨(send c st1 req).2, pre, sm, ?_, ?_, ?_, hbody, ?_, ?_⟩
    · rw [hreads]
    · rw [hreads]
      simpa using hlog
    · rw [hsalt1]
    · rw [hreq2]
    · rw [hreq2]
      simp only []
      intro heq
      have : st1.session.lastMsgId = st.session.lastMsgId := rfl
      omega
  · rw [hreads]
  · rw [hreads]

/-- Witness for C4 at a concrete state, request and salt. -/
theorem claim_c4_bad_server_salt_witness :
    ((handleBadServerSalt cId sampleState 50 3
        (badSaltBytes 0xedab447b 104 1 48 21 [])
        (some sampleRequest) none).st.session.salt = 21 ∧
      (handleBadServerSalt cId sampleState 50 3
        (badSaltBytes 0xedab447b 104 1 48 21 [])
        (some sampleRequest) none).result = .ok true ∧
      ∃ req2 pre sm,
        (handleBadServerSalt cId sampleState 50 3
          (badSaltBytes 0xedab447b 104 1 48 21 [])
          (some sampleRequest) none).request = some req2 ∧
        (handleBadServerSalt cId sampleState 50 3
          (badSaltBytes 0xedab447b 104 1 48 21 [])
          (some sampleRequest) none).st.sentLog
            = sampleState.sentLog ++ pre ++ [sm] ∧
        sm.salt = 21 ∧
        sm.body = sampleRequest.body ∧
        sm.msgId = req2.msgId ∧
        req2.msgId ≠ sampleRequest.msgId) ∧
    ((handleBadServerSalt cId sampleState 50 3
        (badSaltBytes 0xedab447b 104 1 48 21 [])
        none none).st.session.salt = 21 ∧
      (handleBadServerSalt cId sampleState 50 3
        (badSaltBytes 0xedab447b 104 1 48 21 [])
        none none).result = .error .valueError) :=
  claim_c4_bad_server_salt cId sampleState 50 3 0xedab447b 104 1 48 21 []
    sampleRequest (by decide) (by decide)

/-- C7: for `bad_msg_notification` with error code 16 or 17 the handler
calls `session.update_time_offset` with the current inbound msg id,
persists the session via `save()` and surfaces no error; for any other
code it raises `BadMessage(code)` and leaves the session untouched. -/
theorem claim_c7_bad_msg_notification (st : SenderState) (mi sq : Int)
    (tag reqId : Nat) (reqSeq errCode : Int) (rest : Reader)
    (request : Option Request) (updates : Option (List (List Nat)))
    (hlo : -(2 ^ 31) ≤ errCode) (hhi : errCode < 2 ^ 31) :
    (errCode = 16 ∨ errCode = 17 →
      handleBadMsgNotification st mi sq
          (badMsgBytes tag reqId reqSeq errCode rest) request updates =
        ⟨{ st with session := sessionSave (updateTimeOffset st.session mi) },
          request, updates, rest, .ok false⟩) ∧
    (¬(errCode = 16 ∨ errCode = 17) →
      handleBadMsgNotification st mi sq
          (badMsgBytes tag reqId reqSeq errCode rest) request updates =
        ⟨st, request, updates, rest, .error (.badMessage errCode)⟩) := by
  unfold handleBadMsgNotification
  simp only [badMsgBytes, readBytesR_toBytesLE, readBytesR_intToBytesLE,
    toSigned_intToBytesLE_32 errCode hlo hhi]
  constructor
  · intro h
    rw [if_pos h]
  · intro h
    rw [if_neg h]

/-- Witness for C7: code 16 adjusts the time offset and saves; code 5 is
fatal. -/
theorem claim_c7_bad_msg_notification_witness :
    (handleBadMsgNotification sampleState 50 3
        (badMsgBytes 0xa7eff811 104 1 16 []) (some sampleRequest) none =
      ⟨{ sampleState with
          session := sessionSave (updateTimeOffset sampleState.session 50) },
        some sampleRequest, none, [], .ok false⟩) ∧
    (handleBadMsgNotification sampleState 50 3
        (badMsgBytes 0xa7eff811 104 1 5 []) (some sampleRequest) none =
      ⟨sampleState, some sampleRequest, none, [],
        .error (.badMessage 5)⟩) :=
  ⟨(claim_c7_bad_msg_notification sampleState 50 3 0xa7eff811 104 1 16 []
      (some sampleRequest) none (by decide) (by decide)).1 (Or.inl rfl),
    (claim_c7_bad_msg_notification sampleState 50 3 0xa7eff811 104 1 5 []
      (some sampleRequest) none (by decide) (by decide)).2 (by decide)⟩

/-- Reading a TL byte string back from its serialization. -/
theorem tgreadBytesR_tgWriteBytes (bs rest : List Nat)
    (h : bs.length < 2 ^ 32) :
    tgreadBytesR (tgWriteBytes bs ++ rest) = some (bs, rest) := by
  have h4 : bs.length < 256 ^ 4 := by
    have : (256 : Nat) ^ 4 = 2 ^ 32 := by norm_num
    omega
  unfold tgreadBytesR tgWriteBytes
  rw [List.append_assoc]
  simp only [readBytesR_toBytesLE, fromBytesLE_toBytesLE_of_lt h4]
  exact readBytesR_append rest rfl

/-- Fully reduced behavior of `_handle_rpc_result` on a well-formed
`rpc_result` head whose inner code is not `rpc_error`. -/
theorem handleRpcResult_reduce (E : Ext) (st : SenderState) (mi sq : Int)
    (tag rid inner : Nat) (rest : Reader) (request : Option Request)
    (updates : Option (List (List Nat)))
    (hrid : rid < 2 ^ 64) (hinner : inner < 2 ^ 32)
    (hne : inner ≠ 0x2144ca19) :
    handleRpcResult E st mi sq (rpcResultBytes tag rid inner rest)
        request updates =
      (let request1 : Option Request :=
        match request with
        | some req =>
          if rid = req.msgId then some { req with confirmReceived := true }
          else some req
        | none => none
      match request1 with
      | none => ⟨st, none, updates, rest, .error .valueError⟩
      | some req =>
        if inner = 0x3072cfa1 then
          match tgreadBytesR rest with
          | none => ⟨st, some req, updates, rest, .error .bufferError⟩
          | some (packed, r4) =>
            ⟨st,
              some { req with responses := req.responses ++ [E.gunzip packed] },
              updates, r4, .ok false⟩
        else
          if rid = req.msgId then
            ⟨st,
              some { req with
                responses := req.responses ++ [toBytesLE inner 4 ++ rest] },
              updates, toBytesLE inner 4 ++ rest, .ok false⟩
          else
            ⟨st, some req, updates, toBytesLE inner 4 ++ rest, .ok false⟩) := by
  have hrid8 : rid < 256 ^ 8 := by
    have : (256 : Nat) ^ 8 = 2 ^ 64 := by norm_num
    omega
  have hinner4 : inner < 256 ^ 4 := by
    have : (256 : Nat) ^ 4 = 2 ^ 32 := by norm_num
    omega
  unfold handleRpcResult
  simp only [rpcResultBytes, readBytesR_toBytesLE,
    fromBytesLE_toBytesLE_of_lt hrid8, fromBytesLE_toBytesLE_of_lt hinner4]
  rw [if_neg hne]

/-- C6: in `_handle_rpc_result` (non-error inner code),
`confirm_received` ends up true exactly when a request was supplied and
the `request_id` read from the message equals `request.msg_id`; a plain
(non-gzip) result with a non-matching id is discarded without touching the
request, the state or `on_response`; and with no request supplied the
handler raises `ValueError`. -/
theorem claim_c6_rpc_result_confirmation (E : Ext) (st : SenderState)
    (mi sq : Int) (tag rid inner : Nat) (rest : Reader) (req : Request)
    (hconf : req.confirmReceived = false)
    (hrid : rid < 2 ^ 64) (hinner : inner < 2 ^ 32)
    (hne : inner ≠ 0x2144ca19) :
    (∃ req2,
      (handleRpcResult E st mi sq (rpcResultBytes tag rid inner rest)
        (some req) none).request = some req2 ∧
      (req2.confirmReceived = true ↔ rid = req.msgId)) ∧
    (inner ≠ 0x3072cfa1 → rid ≠ req.msgId →
      handleRpcResult E st mi sq (rpcResultBytes tag rid inner rest)
          (some req) none =
        ⟨st, some req, none, toBytesLE inner 4 ++ rest, .ok false⟩) ∧
    (handleRpcResult E st mi sq (rpcResultBytes tag rid inner rest)
        none none).result = .error .valueError := by
  have hred := handleRpcResult_reduce E st mi sq tag rid inner rest
  refine ⟨?_, ?_, ?_⟩
  · rw [hred (some req) none hrid hinner hne]
    rcases htg : tgreadBytesR rest with - | ⟨packed, r4⟩ <;>
      by_cases hmatch : rid = req.msgId <;>
        by_cases hgz : inner = 0x3072cfa1 <;>
          simp [htg, hmatch, hgz, hconf]
  · intro hgz hmatch
    rw [hred (some req) none hrid hinner hne]
    simp [hmatch, hgz]
  · rw [hred none none hrid hinner hne]

/-- Witness for C6 at a concrete non-matching plain result. -/
theorem claim_c6_rpc_result_confirmation_witness :
    (∃ req2,
      (handleRpcResult eId sampleState 50 3
        (rpcResultBytes 0xf35c6d01 500 7 [1, 2])
        (some sampleRequest) none).request = some req2 ∧
      (req2.confirmReceived = true ↔ 500 = sampleRequest.msgId)) ∧
    (7 ≠ 0x3072cfa1 → 500 ≠ sampleRequest.msgId →
      handleRpcResult eId sampleState 50 3
          (rpcResultBytes 0xf35c6d01 500 7 [1, 2])
          (some sampleRequest) none =
        ⟨sampleState, some sampleRequest, none, toBytesLE 7 4 ++ [1, 2],
          .ok false⟩) ∧
    (handleRpcResult eId sampleState 50 3
        (rpcResultBytes 0xf35c6d01 500 7 [1, 2])
        none none).result = .error .valueError :=
  claim_c6_rpc_result_confirmation eId sampleState 50 3 0xf35c6d01 500 7
    [1, 2] sampleRequest (by decide) (by decide) (by decide) (by decide)

/-- C8: an `rpc_error` whose message starts with `FLOOD_WAIT_` makes the
handler record the integer suffix in the `updates_thread_sleep` signal and
raise `FloodWait` with that many seconds (provided the error is not a
must-resend one handled with no live request, which would fail earlier). -/
theorem claim_c8_flood_wait (E : Ext) (st : SenderState) (mi sq : Int)
    (tag rid : Nat) (code : Int) (message : List Nat) (rest : Reader)
    (request : Option Request) (updates : Option (List (List Nat)))
    (hrid : rid < 2 ^ 64)
    (hlo : -(2 ^ 31) ≤ code) (hhi : code < 2 ^ 31)
    (hlen : message.length < 2 ^ 32)
    (hfl : startsWithL floodTag message = true)
    (hres : E.mustResend code message = false ∨ ∃ rq, request = some rq) :
    (handleRpcResult E st mi sq
        (rpcResultBytes tag rid 0x2144ca19 (rpcErrorBytes code message rest))
        request updates).st.updatesThreadSleep
      = some (decVal (message.drop floodTag.length)) ∧
    (handleRpcResult E st mi sq
        (rpcResultBytes tag rid 0x2144ca19 (rpcErrorBytes code message rest))
        request updates).result
      = .error (.floodWait (decVal (message.drop floodTag.length))) := by
  have hrid8 : rid < 256 ^ 8 := by
    have : (256 : Nat) ^ 8 = 2 ^ 64 := by norm_num
    omega
  have h2144 : (0x2144ca19 : Nat) < 256 ^ 4 := by norm_num
  rcases hres with hmr | ⟨rq, hreq⟩
  · constructor <;>
      simp [handleRpcResult, rpcResultBytes, rpcErrorBytes,
        readBytesR_toBytesLE, readBytesR_intToBytesLE,
        tgreadBytesR_tgWriteBytes message rest hlen,
        toSigned_intToBytesLE_32 code hlo hhi,
        fromBytesLE_toBytesLE_of_lt hrid8, fromBytesLE_toBytesLE_of_lt h2144,
        hmr, hfl]
  · subst hreq
    by_cases hmr : E.mustResend code message <;>
      constructor <;>
      simp [handleRpcResult, rpcResultBytes, rpcErrorBytes,
        readBytesR_toBytesLE, readBytesR_intToBytesLE,
        tgreadBytesR_tgWriteBytes message rest hlen,
        toSigned_intToBytesLE_32 code hlo hhi,
        fromBytesLE_toBytesLE_of_lt hrid8, fromBytesLE_toBytesLE_of_lt h2144,
        hmr, hfl] <;>
      (by_cases hm : rid = rq.msgId <;> simp [hm])

/-- Witness for C8: `FLOOD_WAIT_7` records and raises 7 seconds. -/
theorem claim_c8_flood_wait_witness :
    (handleRpcResult eId sampleState 50 3
        (rpcResultBytes 0xf35c6d01 500 0x2144ca19
          (rpcErrorBytes 420 (strBytes "FLOOD_WAIT_7") []))
        (some sampleRequest) none).st.updatesThreadSleep = some 7 ∧
    (handleRpcResult eId sampleState 50 3
        (rpcResultBytes 0xf35c6d01 500 0x2144ca19
          (rpcErrorBytes 420 (strBytes "FLOOD_WAIT_7") []))
        (some sampleRequest) none).result = .error (.floodWait 7) := by
  have h := claim_c8_flood_wait eId sampleState 50 3 0xf35c6d01 500 420
    (strBytes "FLOOD_WAIT_7") [] (some sampleRequest) none
    (by decide) (by decide) (by decide) (by decide) (by decide)
    (Or.inl rfl)
  refine ⟨?_, ?_⟩
  · rw [h.1]
    rfl
  · rw [h.2]
    rfl

/-- C9: in `_handle_rpc_result`, a gzip-packed inner result is fed to
`request.on_response` unconditionally — even when the `request_id` read
from the message differs from `request.msg_id`, the decompressed bytes are
delivered to the current request instead of being discarded. -/
theorem claim_c9_gzip_skips_id_check (E : Ext) (st : SenderState)
    (mi sq : Int) (tag rid : Nat) (payload : List Nat) (rest : Reader)
    (req : Request)
    (hrid : rid < 2 ^ 64) (hmatch : rid ≠ req.msgId)
    (hlen : payload.length < 2 ^ 32) :
    handleRpcResult E st mi sq
        (rpcResultBytes tag rid 0x3072cfa1 (tgWriteBytes payload ++ rest))
        (some req) none =
      ⟨st, some { req with responses := req.responses ++ [E.gunzip payload] },
        none, rest, .ok false⟩ := by
  rw [handleRpcResult_reduce E st mi sq tag rid 0x3072cfa1
    (tgWriteBytes payload ++ rest) (some req) none hrid (by norm_num)
    (by decide)]
  simp [tgreadBytesR_tgWriteBytes payload rest hlen, hmatch]

/-- Witness for C9: a stale gzipped result with a non-matching id is still
delivered. -/
theorem claim_c9_gzip_skips_id_check_witness :
    handleRpcResult eId sampleState 50 3
        (rpcResultBytes 0xf35c6d01 500 0x3072cfa1
          (tgWriteBytes [4, 5, 6] ++ [9]))
        (some sampleRequest) none =
      ⟨sampleState,
        some { sampleRequest with
          responses := sampleRequest.responses ++ [eId.gunzip [4, 5, 6]] },
        none, [9], .ok false⟩ :=
  claim_c9_gzip_skips_id_check eId sampleState 50 3 0xf35c6d01 500 [4, 5, 6]
    [9] sampleRequest (by decide) (by decide) (by decide)

/-- C10: dispatching a `pong` while no request is live (the
`request = None` mode `receive_update` and the updates thread use) raises
`AttributeError` — `_handle_pong` dereferences `request.msg_id`
unconditionally — instead of returning `False` and letting the receive
loop continue; the inbound msg id has already been appended to the ack
buffer by then. -/
theorem claim_c10_pong_requires_request (E : Ext) (fuel : Nat)
    (st : SenderState) (mi sq : Int) (pid : Nat) (rest : Reader)
    (updates : Option (List (List Nat))) :
    (processMsg E (fuel + 1) st mi sq
        (toBytesLE 0x347773c5 4 ++ (toBytesLE pid 8 ++ rest))
        none updates).result = .error .attributeError ∧
    (processMsg E (fuel + 1) st mi sq
        (toBytesLE 0x347773c5 4 ++ (toBytesLE pid 8 ++ rest))
        none updates).st.needConfirmation = st.needConfirmation ++ [mi] := by
  have htag : fromBytesLE (toBytesLE 0x347773c5 4) = 0x347773c5 :=
    fromBytesLE_toBytesLE_of_lt (by norm_num)
  constructor <;>
    simp [processMsg, handlePong, readBytesR_toBytesLE, htag]

/-- Witness for C3 at a concrete state with two pending acks. -/
theorem claim_c3_ack_drain_witness :
    (send cId sampleState sampleRequest).1.needConfirmation = [] ∧
    (∃ ack reqSm,
      (send cId sampleState sampleRequest).1.sentLog
          = sampleState.sentLog ++ [ack, reqSm] ∧
      ack.body = msgsAckBytes sampleState.needConfirmation ∧
      ack.confirmed = false ∧
      ack.seqNo % 2 = 0 ∧
      reqSm.body = sampleRequest.body ∧
      reqSm.confirmed = sampleRequest.confirmed) :=
  ⟨(claim_c3_ack_drain cId sampleState sampleRequest).1,
    (claim_c3_ack_drain cId sampleState sampleRequest).2 (by decide)⟩

end MtProto
